import Mathlib

/-!
Verification of the `understanding-js` repository's worker-thread demo and
promise-vs-async comparison, shallowly embedded in Lean 4.

The worker demo (the `worker_threads` script) runs one file in two modes:
the main thread spawns eight workers in a `for` loop, passing the loop index
as `workerData`, then installs a repeating 1000 ms timer printing
"Still alive!"; each worker logs `console.log('Started: ', workerData)` and
then spins in `while (true) { Math.random(); }`.

The error-handling script defines `promiseFn` (explicit Promise executor with
`resolve`/`reject`) and `asyncFn` (an `async` function using `return`/`throw`).
-/

namespace UJS

/-- A console output line, kept structured as the `console.log` call that
produced it: `logStr2 s n` is `console.log(s, n)` (two arguments), `logStr s`
is `console.log(s)` (one argument). -/
inductive Line where
  | logStr2 (s : String) (n : Int)
  | logStr (s : String)
deriving DecidableEq, Repr

/-- The text a console line renders to; `console.log` joins its arguments with
a single space and prints numbers in decimal. -/
def Line.render : Line → String
  | .logStr2 s n => s ++ " " ++ toString n
  | .logStr s => s

/-- A top-level effect of running the demo file's setup code. -/
inductive Event where
  | spawn (workerData : Int)
  | installTimer (periodMs : Int) (arg : String)
  | console (l : Line)
deriving DecidableEq, Repr

/-- Whether an event is a worker spawn. -/
def Event.isSpawn : Event → Bool
  | .spawn _ => true
  | _ => false

/-- Whether an event installs a repeating timer. -/
def Event.isInstallTimer : Event → Bool
  | .installTimer _ _ => true
  | _ => false

/-- The `workerData` values carried by the spawn events of an event list. -/
def spawnedData (evs : List Event) : List Int :=
  evs.filterMap fun e =>
    match e with
    | .spawn d => some d
    | _ => none

/-- The successive values of `i` in `for (let i = i0; i < workerCount; ++i)`. -/
def forLoop (i workerCount : Int) : List Int :=
  if i < workerCount then i :: forLoop (i + 1) workerCount else []
termination_by (workerCount - i).toNat
decreasing_by
  simp_wf
  omega

/-- The `workerData` values passed to `new Worker` by the main thread's spawn
loop, generalized from the source's fixed bound 8 to a parameter. -/
def spawnIds (workerCount : Int) : List Int := forLoop 0 workerCount

/-- The third argument of the source's `setInterval` call. -/
def intervalArg : String := "Still alive!"

/-- The period, in milliseconds, of the source's `setInterval` call. -/
def intervalPeriod : Int := 1000

/-- The `setInterval` callback `(a) => console.log(a)`. -/
def intervalCallback (a : String) : Line := Line.logStr a

/-- The setup effects of one execution of the demo file: the main thread
spawns `workerCount` workers then installs the interval timer; a worker
thread logs `'Started: '` together with its `workerData` (and then enters
the spin loop, modelled separately as a step machine). -/
def fileSetup (isMainThread : Bool) (workerData workerCount : Int) : List Event :=
  if isMainThread then
    (spawnIds workerCount).map Event.spawn ++ [Event.installTimer intervalPeriod intervalArg]
  else
    [Event.console (Line.logStr2 "Started: " workerData)]

/-- The main-thread branch of the demo file (`Start` in the specification). -/
def mainBranch (workerCount : Int) : List Event := fileSetup true 0 workerCount

/-- Control point of a worker thread: about to log, inside `while (true)`,
or after the loop (reachable only if the loop guard were ever false). -/
inductive WPhase where
  | entry
  | looping
  | exited
deriving DecidableEq, Repr

/-- State of one worker thread: its `workerData` identifier, its control
point, the console lines it has emitted, and how many times it has drawn a
value from `Math.random()`. -/
structure WState where
  id : Int
  phase : WPhase
  out : List Line
  draws : Nat
deriving DecidableEq, Repr

/-- A freshly spawned worker: it has received only its `workerData` value. -/
def wInit (workerData : Int) : WState :=
  { id := workerData, phase := .entry, out := [], draws := 0 }

/-- The guard of the worker's loop, the literal `true` of `while (true)`. -/
def loopGuard : Bool := true

/-- One small step of a worker thread: at entry it executes
`console.log('Started: ', workerData)` and falls into the loop; in the loop
it tests the guard and either draws one `Math.random()` value or exits. -/
def wStep (w : WState) : WState :=
  match w.phase with
  | .entry => { w with phase := .looping, out := w.out ++ [Line.logStr2 "Started: " w.id] }
  | .looping =>
      if loopGuard then { w with draws := w.draws + 1 } else { w with phase := .exited }
  | .exited => w

/-- A worker thread after `n` small steps. -/
def wIter (n : Nat) (w : WState) : WState := wStep^[n] w

/-- State of the main thread after setup: whether its interval timer is
installed (the source never calls `clearInterval`), how many ticks have
fired, and the lines it has printed. -/
structure CoordState where
  timerInstalled : Bool
  ticks : Nat
  out : List Line
deriving DecidableEq, Repr

/-- The main thread right after `setInterval` returns. -/
def coordInit : CoordState := { timerInstalled := true, ticks := 0, out := [] }

/-- One timer tick of the main thread: if the timer is installed, the
callback runs on the interval's argument and prints one line. -/
def coordStep (c : CoordState) : CoordState :=
  if c.timerInstalled then
    { c with ticks := c.ticks + 1, out := c.out ++ [intervalCallback intervalArg] }
  else c

/-- The wall-clock time, in milliseconds after `setInterval`, of tick `k`
(0-based): the first tick fires one period after installation. -/
def tickTime (k : Nat) : Int := intervalPeriod * (k + 1)

/-- A scheduling choice: either the main thread's timer fires, or worker
`j` performs one step. Threads are preemptively scheduled by the host. -/
inductive Sched where
  | coordTick
  | worker (j : Nat)
deriving DecidableEq, Repr

/-- The whole process: the main thread plus the spawned workers. Workers are
indexed by spawn order; each has its own isolated state. -/
structure Sys where
  coord : CoordState
  workerCount : Nat
  workers : Nat → WState

/-- The process just after the main thread's setup ran with the given
`workerCount`: the `j`-th spawn request carried the `j`-th value of the
spawn loop as `workerData`, and the timer is installed. -/
def sysInit (workerCount : Int) : Sys :=
  { coord := coordInit
    workerCount := (spawnIds workerCount).length
    workers := fun j => wInit ((spawnIds workerCount).getD j 0) }

/-- One interleaving step of the process under a scheduling choice. Stepping
one thread touches only that thread's state. -/
def sysStep (s : Sys) : Sched → Sys
  | .coordTick => { s with coord := coordStep s.coord }
  | .worker j => { s with workers := Function.update s.workers j (wStep (s.workers j)) }

/-- Run the process under a finite schedule of interleaving choices. -/
def sysRun (s : Sys) (sched : List Sched) : Sys := sched.foldl sysStep s

/-- The host keeps the process alive while the repeating timer is pending or
any worker has not finished. -/
def processAlive (s : Sys) : Prop :=
  s.coord.timerInstalled = true ∨ ∃ j, j < s.workerCount ∧ (s.workers j).phase ≠ WPhase.exited

/-- The number of execution contexts of a run: the main thread, plus, for
each spawn request it issued, that worker's context together with any
contexts the worker's own setup spawns (a worker re-executes the same file
with `isMainThread` false). -/
def totalContexts (workerCount : Int) : Nat :=
  1 + ((spawnedData (fileSetup true 0 workerCount)).map
        (fun d => 1 + (spawnedData (fileSetup false d workerCount)).length)).sum

/-- The settled outcome of a JavaScript promise: fulfilled with a value or
rejected with a reason (the reasons in this file are strings). -/
inductive Settled (α : Type) where
  | fulfilled (value : α)
  | rejected (reason : String)
deriving DecidableEq, Repr

/-- The `promiseFn` arrow function: a Promise whose executor calls
`resolve(number * 2)` when `number > 0` and `reject('Nope')` otherwise.
JavaScript numbers are modelled as rationals. -/
def promiseFn (number : ℚ) : Settled ℚ :=
  if number > 0 then .fulfilled (number * 2) else .rejected "Nope"

/-- The body of the `asyncFn` arrow function: `return number * 2` when
`number > 0`, `throw 'Nope'` otherwise. -/
def asyncFnBody (number : ℚ) : Except String ℚ :=
  if number > 0 then .ok (number * 2) else .error "Nope"

/-- Calling an `async` function yields a promise: a normal return fulfils
it and a thrown value rejects it. -/
def asyncFn (number : ℚ) : Settled ℚ :=
  match asyncFnBody number with
  | .ok v => .fulfilled v
  | .error e => .rejected e

/-- The loop `for (let i = i0; i < N; ++i)` visits `i0, i0+1, ...` exactly
`(N - i0).toNat` times. -/
theorem forLoop_eq (n : Nat) : ∀ i workerCount : Int, (workerCount - i).toNat = n →
    forLoop i workerCount = (List.range n).map (fun k : Nat => i + (k : Int)) := by
  induction n with
  | zero =>
      intro i N h
      rw [forLoop]
      have : ¬ i < N := by omega
      simp [this]
  | succ n ih =>
      intro i N h
      have hlt : i < N := by omega
      rw [forLoop, if_pos hlt, ih (i + 1) N (by omega), List.range_succ_eq_map]
      simp only [List.map_cons, List.map_map]
      congr 1
      · simp
      · apply List.map_congr_left
        intro k _
        simp only [Function.comp_apply, Nat.succ_eq_add_one]
        push_cast
        ring

/-- The spawn loop passes exactly the values `0, 1, ..., workerCount - 1`. -/
theorem spawnIds_eq (workerCount : Int) :
    spawnIds workerCount = (List.range workerCount.toNat).map (fun k : Nat => (k : Int)) := by
  unfold spawnIds
  rw [forLoop_eq workerCount.toNat 0 workerCount (by omega)]
  simp

theorem spawnIds_length (workerCount : Int) :
    (spawnIds workerCount).length = workerCount.toNat := by
  simp [spawnIds_eq]

theorem mem_spawnIds (workerCount k : Int) :
    k ∈ spawnIds workerCount ↔ 0 ≤ k ∧ k < workerCount := by
  simp only [spawnIds_eq, List.mem_map, List.mem_range]
  constructor
  · rintro ⟨m, hm, rfl⟩
    omega
  · rintro ⟨h0, hk⟩
    exact ⟨k.toNat, by omega, by omega⟩

theorem spawnIds_nodup (workerCount : Int) : (spawnIds workerCount).Nodup := by
  rw [spawnIds_eq]
  exact (List.nodup_range _).map fun a b => by omega

theorem spawnIds_get (workerCount : Int) (k : Nat) (h : k < (spawnIds workerCount).length) :
    (spawnIds workerCount).get ⟨k, h⟩ = (k : Int) := by
  rw [List.get_of_eq (spawnIds_eq workerCount)]
  simp

theorem spawnIds_count (workerCount k : Int) (h0 : 0 ≤ k) (hk : k < workerCount) :
    (spawnIds workerCount).count k = 1 :=
  List.count_eq_one_of_mem (spawnIds_nodup workerCount)
    ((mem_spawnIds workerCount k).mpr ⟨h0, hk⟩)

theorem spawnIds_nil (workerCount : Int) (h : workerCount ≤ 0) :
    spawnIds workerCount = [] := by
  rw [spawnIds_eq]
  have : workerCount.toNat = 0 := by omega
  simp [this]

/-- The spawn events of one main-thread run carry exactly the loop values. -/
theorem spawnedData_mainBranch (workerCount : Int) :
    spawnedData (mainBranch workerCount) = spawnIds workerCount := by
  simp [mainBranch, fileSetup, spawnedData, List.filterMap_append, List.filterMap_map,
    Function.comp]
  exact List.filterMap_some _

/-- A worker-branch run spawns nothing. -/
theorem spawnedData_workerBranch (workerData workerCount : Int) :
    spawnedData (fileSetup false workerData workerCount) = [] := by
  simp [fileSetup, spawnedData]

/-- A worker step never changes the worker's identifier. -/
theorem wStep_id (w : WState) : (wStep w).id = w.id := by
  unfold wStep
  rcases w with ⟨i, p, o, d⟩
  cases p <;> simp [loopGuard]

theorem wIter_id (n : Nat) : ∀ w : WState, (wStep^[n] w).id = w.id := by
  induction n with
  | zero => intro w; rfl
  | succ n ih =>
      intro w
      rw [Function.iterate_succ_apply, ih (wStep w), wStep_id]

/-- After one or more steps a worker has printed its startup line, sits in
the spin loop, and has drawn one random value per loop iteration. -/
theorem wIter_succ_eq (id : Int) (n : Nat) :
    wIter (n + 1) (wInit id) =
      { id := id, phase := .looping, out := [Line.logStr2 "Started: " id], draws := n } := by
  induction n with
  | zero => rfl
  | succ n ih =>
      unfold wIter at ih ⊢
      rw [Function.iterate_succ_apply', ih]
      rfl

theorem wIter_phase (id : Int) (n : Nat) : (wIter n (wInit id)).phase ≠ WPhase.exited := by
  cases n with
  | zero =>
      show (wInit id).phase ≠ WPhase.exited
      simp [wInit]
  | succ m =>
      rw [wIter_succ_eq]
      simp

/-- The coordinator after `n` ticks: the timer is still installed and the
output is `n` copies of the heartbeat line. -/
theorem coordIter_eq (n : Nat) :
    coordStep^[n] coordInit =
      { timerInstalled := true, ticks := n,
        out := List.replicate n (Line.logStr "Still alive!") } := by
  induction n with
  | zero => rfl
  | succ n ih =>
      rw [Function.iterate_succ_apply', ih]
      simp [coordStep, intervalCallback, intervalArg, List.replicate_succ']

/-- A tick never changes whether the timer is installed (the source never
calls `clearInterval`). -/
theorem coordStep_timer (c : CoordState) : (coordStep c).timerInstalled = c.timerInstalled := by
  unfold coordStep
  split <;> rfl

/-- Isolation: under any schedule, worker `j`'s state is exactly its own
initial state advanced once per time `j` was scheduled — no other thread's
state enters into it. -/
theorem sysRun_workers (sched : List Sched) : ∀ (s : Sys) (j : Nat),
    (sysRun s sched).workers j = wStep^[sched.count (Sched.worker j)] (s.workers j) := by
  induction sched with
  | nil => intro s j; rfl
  | cons a t ih =>
      intro s j
      have step : sysRun s (a :: t) = sysRun (sysStep s a) t := rfl
      rw [step, ih (sysStep s a) j]
      cases a with
      | coordTick =>
          rw [List.count_cons_of_ne (by simp)]
          rfl
      | worker i =>
          by_cases hij : i = j
          · subst hij
            rw [List.count_cons_self]
            have upd : (sysStep s (Sched.worker i)).workers i = wStep (s.workers i) := by
              simp [sysStep]
            rw [upd, ← Function.iterate_succ_apply]
          · rw [List.count_cons_of_ne (by intro hc; injection hc with hji; exact hij hji.symm)]
            have upd : (sysStep s (Sched.worker i)).workers j = s.workers j := by
              simp [sysStep, Function.update_noteq (Ne.symm hij)]
            rw [upd]

/-- The coordinator's state under any schedule is its own initial state
advanced once per tick the schedule contains. -/
theorem sysRun_coord (sched : List Sched) : ∀ s : Sys,
    (sysRun s sched).coord = coordStep^[sched.count Sched.coordTick] s.coord := by
  induction sched with
  | nil => intro s; rfl
  | cons a t ih =>
      intro s
      have step : sysRun s (a :: t) = sysRun (sysStep s a) t := rfl
      rw [step, ih (sysStep s a)]
      cases a with
      | coordTick =>
          rw [List.count_cons_self]
          have upd : (sysStep s Sched.coordTick).coord = coordStep s.coord := rfl
          rw [upd, ← Function.iterate_succ_apply]
      | worker i =>
          rw [List.count_cons_of_ne (by simp)]
          rfl

theorem sysInit_worker_id (workerCount : Int) (j : Nat)
    (h : j < (spawnIds workerCount).length) :
    ((sysInit workerCount).workers j).id = (j : Int) := by
  show (wInit ((spawnIds workerCount).getD j 0)).id = (j : Int)
  rw [wInit]
  rw [List.getD_eq_getElem (spawnIds workerCount) 0 h]
  have hg := spawnIds_get workerCount j h
  rw [List.get_eq_getElem] at hg
  exact hg

/-- C1: For every `workerCount = N ≥ 1`, `Start` creates exactly N WorkerUnits
whose assigned identifiers form the set `{0, ..., N-1}`, and each identifier
appears exactly once across the startup log lines, however the host
interleaves those lines. -/
theorem claim_C1 (N : Int) (h : 1 ≤ N) :
    ((spawnIds N).length : Int) = N
    ∧ (∀ k : Int, k ∈ spawnIds N ↔ 0 ≤ k ∧ k < N)
    ∧ ∀ lines : List Line,
        lines.Perm ((spawnIds N).map fun i => Line.logStr2 "Started: " i) →
        ∀ k : Int, 0 ≤ k → k < N → lines.count (Line.logStr2 "Started: " k) = 1 := by
  refine ⟨?_, fun k => mem_spawnIds N k, ?_⟩
  · rw [spawnIds_length]
    omega
  · intro lines hperm k h0 hk
    have hinj : Function.Injective fun i : Int => Line.logStr2 "Started: " i := by
      intro a b hab
      injection hab
    calc lines.count (Line.logStr2 "Started: " k)
        = ((spawnIds N).map fun i => Line.logStr2 "Started: " i).count
            (Line.logStr2 "Started: " k) := hperm.count_eq _
      _ = (spawnIds N).count k := List.count_map_of_injective _ _ hinj k
      _ = 1 := spawnIds_count N k h0 hk

theorem claim_C1_witness :
    (1 : Int) ≤ 8
    ∧ (((spawnIds 8).length : Int) = 8
      ∧ (∀ k : Int, k ∈ spawnIds 8 ↔ 0 ≤ k ∧ k < 8)
      ∧ ∀ lines : List Line,
          lines.Perm ((spawnIds 8).map fun i => Line.logStr2 "Started: " i) →
          ∀ k : Int, 0 ≤ k → k < 8 → lines.count (Line.logStr2 "Started: " k) = 1) :=
  ⟨by norm_num, claim_C1 8 (by norm_num)⟩

/-- C2: the process never terminates on its own — under every finite schedule
the coordinator's interval timer is still installed, every worker is still
short of its (unreachable) loop exit, and the process is alive. -/
theorem claim_C2 (N : Int) (sched : List Sched) :
    (sysRun (sysInit N) sched).coord.timerInstalled = true
    ∧ (∀ j : Nat, ((sysRun (sysInit N) sched).workers j).phase ≠ WPhase.exited)
    ∧ processAlive (sysRun (sysInit N) sched) := by
  have hc : (sysRun (sysInit N) sched).coord.timerInstalled = true := by
    rw [sysRun_coord]
    show (coordStep^[sched.count Sched.coordTick] coordInit).timerInstalled = true
    rw [coordIter_eq]
  have hw : ∀ j : Nat, ((sysRun (sysInit N) sched).workers j).phase ≠ WPhase.exited := by
    intro j
    rw [sysRun_workers]
    exact wIter_phase ((spawnIds N).getD j 0) _
  exact ⟨hc, hw, Or.inl hc⟩

theorem claim_C2_witness :
    (sysRun (sysInit 8) [Sched.coordTick, Sched.worker 0]).coord.timerInstalled = true
    ∧ (∀ j : Nat,
        ((sysRun (sysInit 8) [Sched.coordTick, Sched.worker 0]).workers j).phase
          ≠ WPhase.exited)
    ∧ processAlive (sysRun (sysInit 8) [Sched.coordTick, Sched.worker 0]) :=
  claim_C2 8 [Sched.coordTick, Sched.worker 0]

/-- C3: upon entering its execution context a worker first emits exactly one
log line, `'Started: '` followed by its identifier, then sits in the
unbounded loop drawing one pseudo-random value per iteration and emitting
nothing further. -/
theorem claim_C3 (id : Int) (n : Nat) (h : 1 ≤ n) :
    (wIter n (wInit id)).out = [Line.logStr2 "Started: " id]
    ∧ (wIter n (wInit id)).phase = WPhase.looping
    ∧ (wIter n (wInit id)).draws = n - 1
    ∧ (Line.logStr2 "Started: " id).render = "Started: " ++ " " ++ toString id := by
  obtain ⟨m, rfl⟩ : ∃ m, n = m + 1 := ⟨n - 1, by omega⟩
  rw [wIter_succ_eq]
  exact ⟨rfl, rfl, rfl, rfl⟩

theorem claim_C3_witness :
    1 ≤ 3
    ∧ ((wIter 3 (wInit 5)).out = [Line.logStr2 "Started: " 5]
      ∧ (wIter 3 (wInit 5)).phase = WPhase.looping
      ∧ (wIter 3 (wInit 5)).draws = 3 - 1
      ∧ (Line.logStr2 "Started: " 5).render = "Started: " ++ " " ++ toString (5 : Int)) :=
  ⟨by decide, claim_C3 5 3 (by decide)⟩

/-- C4: the main thread installs its repeating timer only after all spawn
requests; the timer's period is 1000 ms and every tick emits a line that is
exactly `Still alive!`. -/
theorem claim_C4 (N : Int) :
    (∃ pre : List Event,
        mainBranch N = pre ++ [Event.installTimer 1000 "Still alive!"]
        ∧ ∀ e ∈ pre, ∃ k, e = Event.spawn k)
    ∧ intervalPeriod = 1000
    ∧ (intervalCallback intervalArg).render = "Still alive!"
    ∧ ∀ n : Nat,
        (coordStep^[n] coordInit).out = List.replicate n (Line.logStr "Still alive!") := by
  refine ⟨⟨(spawnIds N).map Event.spawn, rfl, ?_⟩, rfl, rfl, ?_⟩
  · intro e he
    rcases List.mem_map.mp he with ⟨k, _, rfl⟩
    exact ⟨k, rfl⟩
  · intro n
    rw [coordIter_eq]

theorem claim_C4_witness :
    (∃ pre : List Event,
        mainBranch 8 = pre ++ [Event.installTimer 1000 "Still alive!"]
        ∧ ∀ e ∈ pre, ∃ k, e = Event.spawn k)
    ∧ intervalPeriod = 1000
    ∧ (intervalCallback intervalArg).render = "Still alive!"
    ∧ ∀ n : Nat,
        (coordStep^[n] coordInit).out = List.replicate n (Line.logStr "Still alive!") :=
  claim_C4 8

/-- C5: identifiers are assigned deterministically in spawn-request order —
the k-th spawn request carries `workerData = k` — and worker k's identifier
is k under every schedule, independent of how execution interleaves. -/
theorem claim_C5 (N : Int) (k : Nat) (h : k < (spawnIds N).length) :
    (spawnIds N).getD k 0 = (k : Int)
    ∧ ∀ sched : List Sched, ((sysRun (sysInit N) sched).workers k).id = (k : Int) := by
  have hget : (spawnIds N).getD k 0 = (k : Int) := by
    rw [List.getD_eq_getElem (spawnIds N) 0 h]
    have hg := spawnIds_get N k h
    rw [List.get_eq_getElem] at hg
    exact hg
  refine ⟨hget, ?_⟩
  intro sched
  rw [sysRun_workers, wIter_id]
  exact sysInit_worker_id N k h

theorem claim_C5_witness :
    (3 : Nat) < (spawnIds 8).length
    ∧ ((spawnIds 8).getD 3 0 = (3 : Int)
      ∧ ∀ sched : List Sched, ((sysRun (sysInit 8) sched).workers 3).id = (3 : Int)) := by
  have h : (3 : Nat) < (spawnIds 8).length := by
    rw [spawnIds_length]
    norm_num
  exact ⟨h, claim_C5 8 3 h⟩

/-- The spawn data of concatenated runs is the concatenation of each run's
spawn data. -/
theorem spawnedData_append (a b : List Event) :
    spawnedData (a ++ b) = spawnedData a ++ spawnedData b := by
  simp [spawnedData, List.filterMap_append]

/-- C6: `Start` is not idempotent — running the main branch twice issues
exactly `2 * N` spawn requests, and each identifier in `0..N-1` occurs
exactly twice, because identifiers are scoped per invocation. -/
theorem claim_C6 (N : Int) (h : 1 ≤ N) :
    ((spawnedData (mainBranch N ++ mainBranch N)).length : Int) = 2 * N
    ∧ ∀ k : Int, 0 ≤ k → k < N →
        (spawnedData (mainBranch N ++ mainBranch N)).count k = 2 := by
  have hsplit : spawnedData (mainBranch N ++ mainBranch N) = spawnIds N ++ spawnIds N := by
    rw [spawnedData_append, spawnedData_mainBranch]
  constructor
  · rw [hsplit, List.length_append, spawnIds_length]
    omega
  · intro k h0 hk
    rw [hsplit, List.count_append, spawnIds_count N k h0 hk]

theorem claim_C6_witness :
    (1 : Int) ≤ 8
    ∧ (((spawnedData (mainBranch 8 ++ mainBranch 8)).length : Int) = 2 * 8
      ∧ ∀ k : Int, 0 ≤ k → k < 8 →
          (spawnedData (mainBranch 8 ++ mainBranch 8)).count k = 2) :=
  ⟨by norm_num, claim_C6 8 (by norm_num)⟩

/-- C7: workers are isolated — stepping worker i changes neither another
worker j nor the coordinator, and under any schedule worker j's state is a
function only of its own identifier (the one value passed at spawn time)
and of how often it was scheduled. -/
theorem claim_C7 (N : Int) (sched : List Sched) (i j : Nat) (h : i ≠ j) :
    (sysStep (sysRun (sysInit N) sched) (Sched.worker i)).workers j
        = (sysRun (sysInit N) sched).workers j
    ∧ (sysStep (sysRun (sysInit N) sched) (Sched.worker i)).coord
        = (sysRun (sysInit N) sched).coord
    ∧ (sysRun (sysInit N) sched).workers j
        = wStep^[sched.count (Sched.worker j)] (wInit ((spawnIds N).getD j 0)) := by
  refine ⟨?_, rfl, ?_⟩
  · simp [sysStep, Function.update_noteq (Ne.symm h)]
  · exact sysRun_workers sched (sysInit N) j

theorem claim_C7_witness :
    (0 : Nat) ≠ 1
    ∧ ((sysStep (sysRun (sysInit 2) [Sched.worker 1]) (Sched.worker 0)).workers 1
          = (sysRun (sysInit 2) [Sched.worker 1]).workers 1
      ∧ (sysStep (sysRun (sysInit 2) [Sched.worker 1]) (Sched.worker 0)).coord
          = (sysRun (sysInit 2) [Sched.worker 1]).coord
      ∧ (sysRun (sysInit 2) [Sched.worker 1]).workers 1
          = wStep^[List.count (Sched.worker 1) [Sched.worker 1]]
              (wInit ((spawnIds 2).getD 1 0))) :=
  ⟨by decide, claim_C7 2 [Sched.worker 1] 0 1 (by decide)⟩

/-- C8: a spawned worker re-executes the file with `isMainThread` false, so
it spawns nothing and installs no timer; a run therefore consists of exactly
`workerCount + 1` execution contexts, and no worker ever emits the
heartbeat line. -/
theorem claim_C8 (workerData workerCount id : Int) (n : Nat) :
    spawnedData (fileSetup false workerData workerCount) = []
    ∧ (fileSetup false workerData workerCount).filter Event.isInstallTimer = []
    ∧ totalContexts workerCount = workerCount.toNat + 1
    ∧ (wIter n (wInit id)).out.count (Line.logStr "Still alive!") = 0 := by
  refine ⟨spawnedData_workerBranch workerData workerCount, rfl, ?_, ?_⟩
  · unfold totalContexts
    have hm : spawnedData (fileSetup true 0 workerCount) = spawnIds workerCount :=
      spawnedData_mainBranch workerCount
    rw [hm]
    have hone : ((spawnIds workerCount).map
          fun d => 1 + (spawnedData (fileSetup false d workerCount)).length)
        = (spawnIds workerCount).map fun _ => 1 := by
      apply List.map_congr_left
      intro d _
      rw [spawnedData_workerBranch]
      rfl
    rw [hone, List.map_const', List.sum_replicate, smul_eq_mul, mul_one, spawnIds_length]
    omega
  · cases n with
    | zero => rfl
    | succ m =>
        rw [wIter_succ_eq]
        apply List.count_eq_zero.mpr
        simp

theorem claim_C8_witness :
    spawnedData (fileSetup false 3 8) = []
    ∧ (fileSetup false 3 8).filter Event.isInstallTimer = []
    ∧ totalContexts 8 = (8 : Int).toNat + 1
    ∧ (wIter 4 (wInit 3)).out.count (Line.logStr "Still alive!") = 0 :=
  claim_C8 3 8 3 4

/-- C9: with the spawn loop generalized to `workerCount`, a non-positive
count makes the loop body never execute — no worker is spawned and no
startup line exists — while the timer is still installed and the heartbeat
lines still appear, one per tick. -/
theorem claim_C9 (workerCount : Int) (h : workerCount ≤ 0) (n : Nat) :
    spawnIds workerCount = []
    ∧ mainBranch workerCount = [Event.installTimer intervalPeriod intervalArg]
    ∧ (coordStep^[n] coordInit).timerInstalled = true
    ∧ (coordStep^[n] coordInit).out = List.replicate n (Line.logStr "Still alive!") := by
  have hnil := spawnIds_nil workerCount h
  refine ⟨hnil, ?_, ?_, ?_⟩
  · simp [mainBranch, fileSetup, hnil]
  · rw [coordIter_eq]
  · rw [coordIter_eq]

theorem claim_C9_witness :
    (-1 : Int) ≤ 0
    ∧ (spawnIds (-1) = []
      ∧ mainBranch (-1) = [Event.installTimer intervalPeriod intervalArg]
      ∧ (coordStep^[2] coordInit).timerInstalled = true
      ∧ (coordStep^[2] coordInit).out = List.replicate 2 (Line.logStr "Still alive!")) :=
  ⟨by norm_num, claim_C9 (-1) (by norm_num) 2⟩

/-- C10: `promiseFn` and `asyncFn` are extensionally equivalent — for every
number both fulfil with `number * 2` when the number is positive and both
reject with `'Nope'` when it is not. -/
theorem claim_C10 (number : ℚ) :
    promiseFn number = asyncFn number
    ∧ (0 < number →
        promiseFn number = Settled.fulfilled (number * 2)
        ∧ asyncFn number = Settled.fulfilled (number * 2))
    ∧ (number ≤ 0 →
        promiseFn number = Settled.rejected "Nope"
        ∧ asyncFn number = Settled.rejected "Nope") := by
  unfold promiseFn asyncFn asyncFnBody
  by_cases hpos : 0 < number
  · rw [if_pos hpos, if_pos hpos]
    exact ⟨rfl, fun _ => ⟨rfl, rfl⟩, fun hle => absurd hpos (not_lt.mpr hle)⟩
  · rw [if_neg hpos, if_neg hpos]
    exact ⟨rfl, fun hlt => absurd hlt hpos, fun _ => ⟨rfl, rfl⟩⟩

theorem claim_C10_witness :
    (promiseFn 2 = asyncFn 2
      ∧ (0 < (2 : ℚ) →
          promiseFn 2 = Settled.fulfilled (2 * 2) ∧ asyncFn 2 = Settled.fulfilled (2 * 2))
      ∧ ((2 : ℚ) ≤ 0 →
          promiseFn 2 = Settled.rejected "Nope" ∧ asyncFn 2 = Settled.rejected "Nope"))
    ∧ (promiseFn (-1) = asyncFn (-1)
      ∧ (0 < (-1 : ℚ) →
          promiseFn (-1) = Settled.fulfilled (-1 * 2)
          ∧ asyncFn (-1) = Settled.fulfilled (-1 * 2))
      ∧ ((-1 : ℚ) ≤ 0 →
          promiseFn (-1) = Settled.rejected "Nope"
          ∧ asyncFn (-1) = Settled.rejected "Nope")) :=
  ⟨claim_C10 2, claim_C10 (-1)⟩

end UJS
